import Mathlib

/-!
# Verification of the SMPC-app risk-scoring core

Shallow embedding of `src/services/geminiService.ts` (the resilient analysis
gateway) and the security engine (`generateShares`, `processTransaction`),
together with the data model of `src/types.ts`.

Modelling conventions:
* JavaScript numbers are modelled as exact rationals (`ℚ`); `toFixed(d)` is
  modelled as round-half-up to `d` decimal digits (the ideal decimal semantics
  the ECMAScript `toFixed` specifies).
* `Math.random()` draws are passed explicitly as rational parameters in
  `[0, 1)`.
* The platform `btoa` is modelled faithfully: standard base64 of the code
  points, failing (`none`) when a code point exceeds 255, which models the
  `InvalidCharacterError` that the browser `btoa` raises on non-Latin-1 input.
* The remote analysis call and the platform `JSON.parse` are environment
  inputs: the outcome of the call and the parse function are parameters.
-/

namespace SMPC

/-- Round-half-up to `d` decimal digits: the ideal decimal semantics of the
JavaScript `Number.prototype.toFixed(d)` followed by `parseFloat`. -/
def toFixedQ (d : ℕ) (q : ℚ) : ℚ := (round (q * 10 ^ d) : ℤ) / 10 ^ d

/-- Record `SMPCShares` of `src/types.ts`: three additive shares. -/
structure SMPCShares where
  partyA : ℚ
  partyB : ℚ
  partyC : ℚ
  deriving DecidableEq

/-- Embedding of `generateShares`. The two `Math.random()` draws are
the explicit parameters `r1` and `r2`:
`shareA = r1 * value`, `shareB = r2 * (value - shareA)`,
`shareC = value - shareA - shareB`. -/
def generateShares (value r1 r2 : ℚ) : SMPCShares :=
  let shareA := r1 * value
  let shareB := r2 * (value - shareA)
  let shareC := value - shareA - shareB
  { partyA := shareA, partyB := shareB, partyC := shareC }

/-- Enum `FraudStatus` of `src/types.ts`. -/
inductive FraudStatus where
  | NORMAL : FraudStatus
  | FRAUD : FraudStatus
  | PENDING : FraudStatus
  deriving DecidableEq

/-- The `Transaction & \x7b shares \x7d` record returned by
`processTransaction` (fields of `Transaction` in `src/types.ts` plus the
attached shares). -/
structure TransactionR where
  id : String
  userId : String
  email : String
  amount : ℚ
  deviceScore : ℚ
  status : FraudStatus
  fraudScore : ℚ
  shares : SMPCShares
  timestamp : String
  deriving DecidableEq

/-- The standard base64 alphabet, as a list of characters. -/
def base64Alphabet : List Char :=
  "ABCDEFGHIJKLMNOPQRSTUVWXYZabcdefghijklmnopqrstuvwxyz0123456789+/".data

/-- The base64 digit for a 6-bit value. -/
def b64Char (n : ℕ) : Char := base64Alphabet.getD n 'A'

/-- Encode one final group of 1, 2 or 3 bytes as 4 base64 characters
(with `=` padding). -/
def base64Chunk : List ℕ → List Char
  | [a] => [b64Char (a / 4), b64Char (a % 4 * 16), '=', '=']
  | [a, b] => [b64Char (a / 4), b64Char (a % 4 * 16 + b / 16), b64Char (b % 16 * 4), '=']
  | [a, b, c] => [b64Char (a / 4), b64Char (a % 4 * 16 + b / 16),
      b64Char (b % 16 * 4 + c / 64), b64Char (c % 64)]
  | _ => []

/-- Base64-encode a byte list, three bytes at a time. -/
def base64Encode : List ℕ → List Char
  | a :: b :: c :: rest => base64Chunk [a, b, c] ++ base64Encode rest
  | [] => []
  | rest => base64Chunk rest

/-- Model of the platform `btoa`: base64 of the string's code points, failing
(`none`, modelling the thrown `InvalidCharacterError`) when any code point
exceeds 255 (non-Latin-1 input). -/
def btoa (s : String) : Option String :=
  if s.data.all (fun c => c.toNat ≤ 255) then
    some (String.mk (base64Encode (s.data.map Char.toNat)))
  else
    none

/-- The transaction record built by `processTransaction` once `btoa email`
has succeeded with value `enc`. The `Math.random()` draws are the explicit
parameters: `rTok` stands for the random id token
(`Math.random().toString(36).substr(2, 9).toUpperCase()`), `rDev` for the
device-risk draw, `r1, r2` for the two share draws; `now` stands for
`new Date().toISOString()`. -/
def mkTransaction (email enc : String) (amount : ℚ) (rTok : String)
    (rDev r1 r2 : ℚ) (now : String) : TransactionR :=
  let id := "TXN-" ++ rTok
  let userId := "USR-" ++ String.mk ((enc.data.take 8).map Char.toUpper)
  let deviceScore := toFixedQ 2 (rDev * 0.9 + 0.05)
  let amountWeight : ℚ := if amount > 7000 then 0.7 else 0.3
  let deviceWeight : ℚ := 0.5
  let normalizedAmount := min (amount / 10000) 1
  let rawFraudScore := normalizedAmount * amountWeight + deviceScore * deviceWeight
  let fraudScore := min (toFixedQ 3 rawFraudScore) 1
  let status :=
    if amount > 9500 ∨ (fraudScore > 0.8 ∧ amount > 1000) then FraudStatus.FRAUD
    else FraudStatus.NORMAL
  let shares := generateShares fraudScore r1 r2
  { id := id, userId := userId, email := email, amount := amount,
    deviceScore := deviceScore, status := status, fraudScore := fraudScore,
    shares := shares, timestamp := now }

/-- Embedding of `processTransaction`. Returns `none` exactly when
`btoa email` raises (non-Latin-1 character in the email), since the `userId`
computation runs before the record is produced. -/
def processTransaction (email : String) (amount : ℚ) (rTok : String)
    (rDev r1 r2 : ℚ) (now : String) : Option TransactionR :=
  (btoa email).map (fun enc => mkTransaction email enc amount rTok rDev r1 r2 now)

/-- A valid transaction, per the data-model invariants of the spec: amount
nonnegative, device score in `[0.05, 0.95]` (so in `[0,1]`), fraud score in
`[0, 1]`, shares summing to the fraud score and each nonnegative, a status
other than `PENDING`, and the creation timestamp attached. -/
def ValidTransaction (t : TransactionR) (now : String) : Prop :=
  0 ≤ t.amount ∧
  0.05 ≤ t.deviceScore ∧ t.deviceScore ≤ 0.95 ∧
  0 ≤ t.fraudScore ∧ t.fraudScore ≤ 1 ∧
  t.shares.partyA + t.shares.partyB + t.shares.partyC = t.fraudScore ∧
  0 ≤ t.shares.partyA ∧ 0 ≤ t.shares.partyB ∧ 0 ≤ t.shares.partyC ∧
  t.status ≠ FraudStatus.PENDING ∧
  t.timestamp = now

/-- JSON values, modelling what the platform `JSON.parse` may produce. -/
inductive Json where
  | null : Json
  | bool (b : Bool) : Json
  | num (q : ℚ) : Json
  | str (s : String) : Json
  | obj (fields : List (String × Json)) : Json

/-- Look up the first field with the given key in a JSON object body. -/
def lookupField : List (String × Json) → String → Option Json
  | [], _ => none
  | (k, v) :: rest, key => if k = key then some v else lookupField rest key

/-- Field access on a JSON value: `none` unless the value is an object with
that field. -/
def getField (j : Json) (key : String) : Option Json :=
  match j with
  | Json.obj fields => lookupField fields key
  | _ => none

/-- Whether an optional JSON value is present and a string. -/
def isStringVal : Option Json → Bool
  | some (Json.str _) => true
  | _ => false

/-- Whether an optional JSON value is one of the strings
`Low`, `Medium`, `High`. -/
def isThreatLevelVal : Option Json → Bool
  | some (Json.str s) => s = "Low" || s = "Medium" || s = "High"
  | _ => false

/-- Structural well-formedness of an `AnalysisResponse` (`src/types.ts`):
an object with string `summary`, `threatLevel` one of Low/Medium/High, and
string `recommendation`. -/
def wellFormedAnalysis (j : Json) : Bool :=
  match j with
  | Json.obj fields =>
      isStringVal (lookupField fields "summary") &&
      isThreatLevelVal (lookupField fields "threatLevel") &&
      isStringVal (lookupField fields "recommendation")
  | _ => false

/-- Outcome of the remote `generateContent` call: either the await throws, or
it returns a response whose `.text` is an optional string. -/
inductive RemoteOutcome where
  | error : RemoteOutcome
  | ok (text : Option String) : RemoteOutcome

/-- Embedding of `response.text || "\x7b\x7d"`: an absent or empty text is
replaced by the empty-object literal. -/
def coerceText : Option String → String
  | none => "\x7b\x7d"
  | some s => if s = "" then "\x7b\x7d" else s

/-- The deterministic fallback `AnalysisResponse` built in the catch block of
`analyzeFraudCase`. -/
def fallbackResponse (txn : TransactionR) : Json :=
  Json.obj
    [("summary", Json.str "Automated AI analysis unavailable. Relying on baseline SMPC scores."),
     ("threatLevel", Json.str (if txn.fraudScore > 0.7 then "High" else "Low")),
     ("recommendation", Json.str "Manual verification required.")]

/-- Embedding of `analyzeFraudCase`. The remote call's outcome and the
platform `JSON.parse` are environment parameters: `parse s = none` models
`JSON.parse` throwing on `s` (caught, hence fallback), `parse s = some j`
models a successful parse, whose value is returned unvalidated (the source
casts with `as AnalysisResponse`, which performs no runtime check). -/
def analyzeFraudCase (parse : String → Option Json) (outcome : RemoteOutcome)
    (txn : TransactionR) : Json :=
  match outcome with
  | RemoteOutcome.error => fallbackResponse txn
  | RemoteOutcome.ok text =>
      match parse (coerceText text) with
      | none => fallbackResponse txn
      | some j => j

/-- Partial model of the platform `JSON.parse`, specified on the one input the
concrete theorems rely on: parsing the empty-object literal yields the empty
object. All other inputs are conservatively treated as throwing. -/
def jsonParseModel (s : String) : Option Json :=
  if s = "\x7b\x7d" then some (Json.obj []) else none

/-- A concrete classified transaction with fraud score `0.3`, used as input to
the gateway theorems. -/
def sampleTxn : TransactionR :=
  { id := "TXN-T", userId := "USR-QUI=", email := "AB", amount := 100,
    deviceScore := 0.05, status := FraudStatus.NORMAL, fraudScore := 0.3,
    shares := generateShares 0.3 0 0, timestamp := "TS" }

/-- A concrete classified transaction with fraud score `0.85`. -/
def sampleTxnHigh : TransactionR :=
  { id := "TXN-T", userId := "USR-QUI=", email := "AB", amount := 9000,
    deviceScore := 0.9, status := FraudStatus.FRAUD, fraudScore := 0.85,
    shares := generateShares 0.85 0 0, timestamp := "TS" }

/-- Shares always sum back to the split value, with no hypotheses. -/
theorem generateShares_sum (value r1 r2 : ℚ) :
    (generateShares value r1 r2).partyA + (generateShares value r1 r2).partyB +
      (generateShares value r1 r2).partyC = value := by
  simp only [generateShares]
  ring

/-- Shares of a nonnegative value are nonnegative for draws in `[0, 1]`. -/
theorem generateShares_nonneg {value r1 r2 : ℚ} (hv : 0 ≤ value) (h1 : 0 ≤ r1)
    (h1' : r1 ≤ 1) (h2 : 0 ≤ r2) (h2' : r2 ≤ 1) :
    0 ≤ (generateShares value r1 r2).partyA ∧
      0 ≤ (generateShares value r1 r2).partyB ∧
      0 ≤ (generateShares value r1 r2).partyC := by
  refine ⟨mul_nonneg h1 hv, ?_, ?_⟩
  · have : 0 ≤ value - r1 * value := by nlinarith
    exact mul_nonneg h2 this
  · show 0 ≤ value - r1 * value - r2 * (value - r1 * value)
    have hA : 0 ≤ value - r1 * value := by nlinarith
    have h2'' : 0 ≤ 1 - r2 := by linarith
    nlinarith [mul_nonneg hA h2'']

/-- Rounding to `d` decimal digits is monotone. -/
theorem toFixedQ_mono (d : ℕ) {a b : ℚ} (h : a ≤ b) : toFixedQ d a ≤ toFixedQ d b := by
  have hp : (0 : ℚ) < 10 ^ d := by positivity
  have hr : round (a * 10 ^ d) ≤ round (b * 10 ^ d) := by
    rw [round_eq, round_eq]
    exact Int.floor_mono (by nlinarith)
  unfold toFixedQ
  exact (div_le_div_iff_of_pos_right hp).mpr (by exact_mod_cast hr)

/-- Destructing a successful `processTransaction` call. -/
theorem processTransaction_eq_some {email : String} {amount : ℚ} {rTok : String}
    {rDev r1 r2 : ℚ} {now : String} {t : TransactionR}
    (h : processTransaction email amount rTok rDev r1 r2 now = some t) :
    ∃ enc, btoa email = some enc ∧ t = mkTransaction email enc amount rTok rDev r1 r2 now := by
  cases hb : btoa email with
  | none => simp [processTransaction, hb] at h
  | some enc =>
      refine ⟨enc, rfl, ?_⟩
      simp [processTransaction, hb] at h
      exact h.symm

/-- The status field of `mkTransaction`, unfolded. -/
theorem mkTransaction_status (email enc : String) (amount : ℚ) (rTok : String)
    (rDev r1 r2 : ℚ) (now : String) :
    (mkTransaction email enc amount rTok rDev r1 r2 now).status =
      (if amount > 9500 ∨
          ((mkTransaction email enc amount rTok rDev r1 r2 now).fraudScore > 0.8 ∧
            amount > 1000)
        then FraudStatus.FRAUD else FraudStatus.NORMAL) := rfl

/-- The fraud-score field of `mkTransaction`, unfolded. -/
theorem mkTransaction_fraudScore (email enc : String) (amount : ℚ) (rTok : String)
    (rDev r1 r2 : ℚ) (now : String) :
    (mkTransaction email enc amount rTok rDev r1 r2 now).fraudScore =
      min (toFixedQ 3 (min (amount / 10000) 1 * (if amount > 7000 then 0.7 else 0.3) +
        toFixedQ 2 (rDev * 0.9 + 0.05) * 0.5)) 1 := rfl

/-- The device-score field of `mkTransaction`, unfolded. -/
theorem mkTransaction_deviceScore (email enc : String) (amount : ℚ) (rTok : String)
    (rDev r1 r2 : ℚ) (now : String) :
    (mkTransaction email enc amount rTok rDev r1 r2 now).deviceScore =
      toFixedQ 2 (rDev * 0.9 + 0.05) := rfl

/-- C1: for every value ≥ 0 and random draws in `[0, 1)`, the three shares of
`generateShares` sum to the value within `1e-9` absolute tolerance (in the
exact-rational model the sum is exact) and each share is nonnegative. -/
theorem generateShares_sum_and_nonneg (value r1 r2 : ℚ)
    (hv : 0 ≤ value) (h1 : 0 ≤ r1) (h1' : r1 < 1) (h2 : 0 ≤ r2) (h2' : r2 < 1) :
    |(generateShares value r1 r2).partyA + (generateShares value r1 r2).partyB +
        (generateShares value r1 r2).partyC - value| ≤ 1 / 1000000000 ∧
      0 ≤ (generateShares value r1 r2).partyA ∧
      0 ≤ (generateShares value r1 r2).partyB ∧
      0 ≤ (generateShares value r1 r2).partyC := by
  have hsum : (generateShares value r1 r2).partyA + (generateShares value r1 r2).partyB +
      (generateShares value r1 r2).partyC - value = 0 := by
    simp only [generateShares]
    ring
  refine ⟨by rw [hsum]; norm_num, ?_, ?_, ?_⟩
  · exact mul_nonneg h1 hv
  · have : 0 ≤ value - r1 * value := by nlinarith
    exact mul_nonneg h2 this
  · show 0 ≤ value - r1 * value - r2 * (value - r1 * value)
    have hA : 0 ≤ value - r1 * value := by nlinarith
    have h2'' : 0 ≤ 1 - r2 := by linarith
    nlinarith [mul_nonneg hA h2'']

/-- Witness for C1 at `value = 2`, `r1 = 1/2`, `r2 = 1/3`. -/
theorem generateShares_sum_and_nonneg_witness :
    |(generateShares 2 (1/2) (1/3)).partyA + (generateShares 2 (1/2) (1/3)).partyB +
        (generateShares 2 (1/2) (1/3)).partyC - 2| ≤ 1 / 1000000000 ∧
      0 ≤ (generateShares 2 (1/2) (1/3)).partyA ∧
      0 ≤ (generateShares 2 (1/2) (1/3)).partyB ∧
      0 ≤ (generateShares 2 (1/2) (1/3)).partyC :=
  generateShares_sum_and_nonneg 2 (1/2) (1/3) (by norm_num) (by norm_num)
    (by norm_num) (by norm_num) (by norm_num)

/-- C6: `generateShares 0` is exactly `\x7b0, 0, 0\x7d` for every pair of
random draws. -/
theorem generateShares_zero (r1 r2 : ℚ) :
    generateShares 0 r1 r2 = { partyA := 0, partyB := 0, partyC := 0 } := by
  simp [generateShares]

/-- Rounding fixes any rational whose scaled value is an integer. -/
theorem toFixedQ_eq_self (d : ℕ) {q : ℚ} (n : ℤ) (h : q * 10 ^ d = (n : ℚ)) :
    toFixedQ d q = q := by
  unfold toFixedQ
  rw [h, round_intCast, ← h]
  exact mul_div_cancel_right₀ q (pow_ne_zero d (by norm_num))

/-- The rounded device score is at least `0.05` whenever the draw is
nonnegative. -/
theorem deviceScore_lb {rDev : ℚ} (h0 : 0 ≤ rDev) :
    0.05 ≤ toFixedQ 2 (rDev * 0.9 + 0.05) := by
  have h5 : toFixedQ 2 (0.05 : ℚ) = 0.05 := toFixedQ_eq_self 2 5 (by norm_num)
  calc (0.05 : ℚ) = toFixedQ 2 0.05 := h5.symm
    _ ≤ toFixedQ 2 (rDev * 0.9 + 0.05) := toFixedQ_mono 2 (by nlinarith)

/-- The rounded device score is at most `0.95` whenever the draw is
below `1`. -/
theorem deviceScore_ub {rDev : ℚ} (h1 : rDev < 1) :
    toFixedQ 2 (rDev * 0.9 + 0.05) ≤ 0.95 := by
  have h95 : toFixedQ 2 (0.95 : ℚ) = 0.95 := toFixedQ_eq_self 2 95 (by norm_num)
  calc toFixedQ 2 (rDev * 0.9 + 0.05) ≤ toFixedQ 2 0.95 := toFixedQ_mono 2 (by nlinarith)
    _ = 0.95 := h95

/-- The shares field of `mkTransaction`, unfolded. -/
theorem mkTransaction_shares (email enc : String) (amount : ℚ) (rTok : String)
    (rDev r1 r2 : ℚ) (now : String) :
    (mkTransaction email enc amount rTok rDev r1 r2 now).shares =
      generateShares (mkTransaction email enc amount rTok rDev r1 r2 now).fraudScore
        r1 r2 := rfl

/-- The fraud score is never above `1` (the explicit `Math.min` clamp). -/
theorem mkTransaction_fraudScore_le_one (email enc : String) (amount : ℚ) (rTok : String)
    (rDev r1 r2 : ℚ) (now : String) :
    (mkTransaction email enc amount rTok rDev r1 r2 now).fraudScore ≤ 1 := by
  rw [mkTransaction_fraudScore]
  exact min_le_right _ _

/-- For a nonnegative amount and a nonnegative device draw, the fraud score is
at least `0.025`. -/
theorem mkTransaction_fraudScore_lb (email enc : String) {amount : ℚ} (rTok : String)
    {rDev : ℚ} (r1 r2 : ℚ) (now : String) (ha : 0 ≤ amount) (h0 : 0 ≤ rDev) :
    0.025 ≤ (mkTransaction email enc amount rTok rDev r1 r2 now).fraudScore := by
  rw [mkTransaction_fraudScore]
  have hdev := deviceScore_lb h0
  have hnorm : (0 : ℚ) ≤ min (amount / 10000) 1 := le_min (by positivity) (by norm_num)
  have hw : (0 : ℚ) ≤ if amount > 7000 then (0.7 : ℚ) else 0.3 := by
    split_ifs <;> norm_num
  have hraw : (0.025 : ℚ) ≤
      min (amount / 10000) 1 * (if amount > 7000 then (0.7 : ℚ) else 0.3) +
        toFixedQ 2 (rDev * 0.9 + 0.05) * 0.5 := by
    nlinarith [mul_nonneg hnorm hw]
  have h25 : toFixedQ 3 (0.025 : ℚ) = 0.025 := toFixedQ_eq_self 3 25 (by norm_num)
  refine le_min ?_ (by norm_num)
  calc (0.025 : ℚ) = toFixedQ 3 0.025 := h25.symm
    _ ≤ toFixedQ 3 _ := toFixedQ_mono 3 hraw

/-- C3: the returned status is `FRAUD` exactly when `amount > 9500` or the
computed fraud score exceeds `0.8` with `amount > 1000`; otherwise it is
`NORMAL`, and `PENDING` is never assigned. -/
theorem processTransaction_status_iff (email : String) (amount : ℚ) (rTok : String)
    (rDev r1 r2 : ℚ) (now : String) (t : TransactionR)
    (h : processTransaction email amount rTok rDev r1 r2 now = some t) :
    (t.status = FraudStatus.FRAUD ↔
        amount > 9500 ∨ (t.fraudScore > 0.8 ∧ amount > 1000)) ∧
      (¬(amount > 9500 ∨ (t.fraudScore > 0.8 ∧ amount > 1000)) →
        t.status = FraudStatus.NORMAL) ∧
      t.status ≠ FraudStatus.PENDING := by
  obtain ⟨enc, -, rfl⟩ := processTransaction_eq_some h
  rw [mkTransaction_status]
  by_cases hc : amount > 9500 ∨
      ((mkTransaction email enc amount rTok rDev r1 r2 now).fraudScore > 0.8 ∧
        amount > 1000)
  · simp [hc]
  · simp [hc]

/-- Witness for C3 at email `AB`, amount `100`, all draws `0`. -/
theorem processTransaction_status_iff_witness :
    ((mkTransaction "AB" "QUI=" 100 "T" 0 0 0 "TS").status = FraudStatus.FRAUD ↔
        (100 : ℚ) > 9500 ∨
          ((mkTransaction "AB" "QUI=" 100 "T" 0 0 0 "TS").fraudScore > 0.8 ∧
            (100 : ℚ) > 1000)) ∧
      (¬((100 : ℚ) > 9500 ∨
          ((mkTransaction "AB" "QUI=" 100 "T" 0 0 0 "TS").fraudScore > 0.8 ∧
            (100 : ℚ) > 1000)) →
        (mkTransaction "AB" "QUI=" 100 "T" 0 0 0 "TS").status = FraudStatus.NORMAL) ∧
      (mkTransaction "AB" "QUI=" 100 "T" 0 0 0 "TS").status ≠ FraudStatus.PENDING :=
  processTransaction_status_iff "AB" 100 "T" 0 0 0 "TS"
    (mkTransaction "AB" "QUI=" 100 "T" 0 0 0 "TS") rfl

/-- C9 (implicit): any amount at most `1000` yields status `NORMAL` for every
random draw, since both disjuncts of the classification need a larger
amount. -/
theorem processTransaction_small_amount_normal (email : String) (amount : ℚ)
    (rTok : String) (rDev r1 r2 : ℚ) (now : String) (t : TransactionR)
    (h : processTransaction email amount rTok rDev r1 r2 now = some t)
    (ha : amount ≤ 1000) :
    t.status = FraudStatus.NORMAL := by
  obtain ⟨enc, -, rfl⟩ := processTransaction_eq_some h
  rw [mkTransaction_status]
  apply if_neg
  push_neg
  exact ⟨by linarith, fun _ => by linarith⟩

/-- Witness for C9 at email `AB`, amount `500`, all draws `0`. -/
theorem processTransaction_small_amount_normal_witness :
    (mkTransaction "AB" "QUI=" 500 "T" 0 0 0 "TS").status = FraudStatus.NORMAL :=
  processTransaction_small_amount_normal "AB" 500 "T" 0 0 0 "TS"
    (mkTransaction "AB" "QUI=" 500 "T" 0 0 0 "TS") rfl (by norm_num)

/-- C8: at amount `500` the normalized amount is `0.05` and the weight `0.3`,
the fraud score is at most `0.49`, and the status is `NORMAL` for every
device-risk draw. -/
theorem processTransaction_amount500_normal (email : String) (rTok : String)
    (rDev r1 r2 : ℚ) (now : String) (t : TransactionR)
    (h : processTransaction email 500 rTok rDev r1 r2 now = some t)
    (h0 : 0 ≤ rDev) (h1 : rDev < 1) :
    min ((500 : ℚ) / 10000) 1 = 0.05 ∧
      (if (500 : ℚ) > 7000 then (0.7 : ℚ) else 0.3) = 0.3 ∧
      t.fraudScore ≤ 0.49 ∧ t.status = FraudStatus.NORMAL := by
  obtain ⟨enc, -, rfl⟩ := processTransaction_eq_some h
  have hmin : min ((500 : ℚ) / 10000) 1 = 0.05 := by
    rw [min_eq_left (by norm_num)]; norm_num
  have hif : (if (500 : ℚ) > 7000 then (0.7 : ℚ) else 0.3) = 0.3 :=
    if_neg (by norm_num)
  have hfs : (mkTransaction email enc 500 rTok rDev r1 r2 now).fraudScore ≤ 0.49 := by
    rw [mkTransaction_fraudScore, hif, hmin]
    have hdev := deviceScore_ub h1
    have h49 : toFixedQ 3 (0.49 : ℚ) = 0.49 := toFixedQ_eq_self 3 490 (by norm_num)
    refine le_trans (min_le_left _ _) ?_
    calc toFixedQ 3 ((0.05 : ℚ) * 0.3 + toFixedQ 2 (rDev * 0.9 + 0.05) * 0.5)
        ≤ toFixedQ 3 0.49 := toFixedQ_mono 3 (by nlinarith)
      _ = 0.49 := h49
  refine ⟨hmin, hif, hfs, ?_⟩
  rw [mkTransaction_status]
  apply if_neg
  push_neg
  exact ⟨by norm_num, fun _ => by norm_num⟩

/-- Witness for C8 at email `AB`, draws `1/2`. -/
theorem processTransaction_amount500_normal_witness :
    min ((500 : ℚ) / 10000) 1 = 0.05 ∧
      (if (500 : ℚ) > 7000 then (0.7 : ℚ) else 0.3) = 0.3 ∧
      (mkTransaction "AB" "QUI=" 500 "T" (1/2) (1/2) (1/2) "TS").fraudScore ≤ 0.49 ∧
      (mkTransaction "AB" "QUI=" 500 "T" (1/2) (1/2) (1/2) "TS").status =
        FraudStatus.NORMAL :=
  processTransaction_amount500_normal "AB" "T" (1/2) (1/2) (1/2) "TS"
    (mkTransaction "AB" "QUI=" 500 "T" (1/2) (1/2) (1/2) "TS") rfl
    (by norm_num) (by norm_num)

/-- C10 (implicit): for a nonnegative amount the fraud score is at least
`0.025`, hence strictly positive and never zero. -/
theorem processTransaction_fraudScore_positive (email : String) (amount : ℚ)
    (rTok : String) (rDev r1 r2 : ℚ) (now : String) (t : TransactionR)
    (h : processTransaction email amount rTok rDev r1 r2 now = some t)
    (ha : 0 ≤ amount) (h0 : 0 ≤ rDev) :
    0.025 ≤ t.fraudScore ∧ 0 < t.fraudScore ∧ t.fraudScore ≠ 0 := by
  obtain ⟨enc, -, rfl⟩ := processTransaction_eq_some h
  have hlb := mkTransaction_fraudScore_lb email enc rTok r1 r2 now ha h0
  refine ⟨hlb, by linarith, ?_⟩
  intro h0'
  rw [h0'] at hlb
  norm_num at hlb

/-- Witness for C10 at email `AB`, amount `100`, draws `1/2`. -/
theorem processTransaction_fraudScore_positive_witness :
    0.025 ≤ (mkTransaction "AB" "QUI=" 100 "T" (1/2) (1/2) (1/2) "TS").fraudScore ∧
      0 < (mkTransaction "AB" "QUI=" 100 "T" (1/2) (1/2) (1/2) "TS").fraudScore ∧
      (mkTransaction "AB" "QUI=" 100 "T" (1/2) (1/2) (1/2) "TS").fraudScore ≠ 0 :=
  processTransaction_fraudScore_positive "AB" 100 "T" (1/2) (1/2) (1/2) "TS"
    (mkTransaction "AB" "QUI=" 100 "T" (1/2) (1/2) (1/2) "TS") rfl
    (by norm_num) (by norm_num)

/-- C4 (amended): for a nonnegative amount and a device draw in `[0, 1)`, the
fraud score lies in `[0, 1]` and the device score in `[0.05, 0.95]`. -/
theorem processTransaction_scores_in_range (email : String) (amount : ℚ)
    (rTok : String) (rDev r1 r2 : ℚ) (now : String) (t : TransactionR)
    (h : processTransaction email amount rTok rDev r1 r2 now = some t)
    (ha : 0 ≤ amount) (h0 : 0 ≤ rDev) (h1 : rDev < 1) :
    (0 ≤ t.fraudScore ∧ t.fraudScore ≤ 1) ∧
      0.05 ≤ t.deviceScore ∧ t.deviceScore ≤ 0.95 := by
  obtain ⟨enc, -, rfl⟩ := processTransaction_eq_some h
  have hlb := mkTransaction_fraudScore_lb email enc rTok r1 r2 now ha h0
  refine ⟨⟨by linarith, mkTransaction_fraudScore_le_one email enc amount rTok rDev r1 r2 now⟩, ?_, ?_⟩
  · rw [mkTransaction_deviceScore]; exact deviceScore_lb h0
  · rw [mkTransaction_deviceScore]; exact deviceScore_ub h1

/-- Witness for the amended C4 at email `AB`, amount `100`, draws `1/2`. -/
theorem processTransaction_scores_in_range_witness :
    (0 ≤ (mkTransaction "AB" "QUI=" 100 "T" (1/2) (1/2) (1/2) "TS").fraudScore ∧
        (mkTransaction "AB" "QUI=" 100 "T" (1/2) (1/2) (1/2) "TS").fraudScore ≤ 1) ∧
      0.05 ≤ (mkTransaction "AB" "QUI=" 100 "T" (1/2) (1/2) (1/2) "TS").deviceScore ∧
      (mkTransaction "AB" "QUI=" 100 "T" (1/2) (1/2) (1/2) "TS").deviceScore ≤ 0.95 :=
  processTransaction_scores_in_range "AB" 100 "T" (1/2) (1/2) (1/2) "TS"
    (mkTransaction "AB" "QUI=" 100 "T" (1/2) (1/2) (1/2) "TS") rfl
    (by norm_num) (by norm_num) (by norm_num)

/-- Counterexample to C4 as stated: at the negative amount `-10000` (the
spec's quantifier has no nonnegativity restriction) the returned fraud score
is `-11/40`, outside `[0, 1]`. -/
theorem processTransaction_negative_amount_counterexample :
    (processTransaction "AB" (-10000) "T" 0 0 0 "TS").map TransactionR.fraudScore =
        some (-(11/40)) ∧ ¬(0 ≤ (-(11/40) : ℚ)) := by
  constructor
  · have he : (processTransaction "AB" (-10000) "T" 0 0 0 "TS").map TransactionR.fraudScore =
        some ((mkTransaction "AB" "QUI=" (-10000) "T" 0 0 0 "TS").fraudScore) := rfl
    rw [he, Option.some.injEq, mkTransaction_fraudScore]
    rw [if_neg (by norm_num : ¬((-10000 : ℚ) > 7000))]
    rw [min_eq_left (by norm_num : ((-10000 : ℚ) / 10000) ≤ 1)]
    rw [show ((0 : ℚ) * 0.9 + 0.05) = 0.05 from by norm_num]
    rw [toFixedQ_eq_self 2 5 (by norm_num)]
    rw [show ((-10000 : ℚ) / 10000 * 0.3 + (0.05 : ℚ) * 0.5) = -(11/40) from by norm_num]
    rw [toFixedQ_eq_self 3 (-275) (by norm_num)]
    exact min_eq_left (by norm_num)
  · norm_num

/-- C5 (amended): for a Latin-1 email, nonnegative amount and draws in
`[0, 1)`, `processTransaction` succeeds and the result satisfies all the
data-model invariants. -/
theorem processTransaction_total_and_valid (email : String) (amount : ℚ)
    (rTok : String) (rDev r1 r2 : ℚ) (now : String)
    (hemail : email.data.all (fun c => c.toNat ≤ 255) = true)
    (ha : 0 ≤ amount) (h0 : 0 ≤ rDev) (h1 : rDev < 1)
    (h2 : 0 ≤ r1) (h3 : r1 < 1) (h4 : 0 ≤ r2) (h5 : r2 < 1) :
    (processTransaction email amount rTok rDev r1 r2 now).isSome = true ∧
      ∀ t, processTransaction email amount rTok rDev r1 r2 now = some t →
        ValidTransaction t now := by
  have hb : btoa email = some (String.mk (base64Encode (email.data.map Char.toNat))) := by
    unfold btoa
    rw [if_pos hemail]
  constructor
  · simp [processTransaction, hb]
  · intro t ht
    obtain ⟨enc, -, rfl⟩ := processTransaction_eq_some ht
    have hlb := mkTransaction_fraudScore_lb email enc rTok r1 r2 now ha h0
    have hub := mkTransaction_fraudScore_le_one email enc amount rTok rDev r1 r2 now
    have hfs0 : 0 ≤ (mkTransaction email enc amount rTok rDev r1 r2 now).fraudScore := by
      linarith
    have hnn := generateShares_nonneg hfs0 h2 (le_of_lt h3) h4 (le_of_lt h5)
    refine ⟨ha, ?_, ?_, hfs0, hub, ?_, ?_, ?_, ?_, ?_, rfl⟩
    · rw [mkTransaction_deviceScore]; exact deviceScore_lb h0
    · rw [mkTransaction_deviceScore]; exact deviceScore_ub h1
    · rw [mkTransaction_shares]; exact generateShares_sum _ r1 r2
    · rw [mkTransaction_shares]; exact hnn.1
    · rw [mkTransaction_shares]; exact hnn.2.1
    · rw [mkTransaction_shares]; exact hnn.2.2
    · rw [mkTransaction_status]
      split_ifs <;> simp

/-- Witness for the amended C5 at email `AB`, amount `100`, draws `1/2`. -/
theorem processTransaction_total_and_valid_witness :
    (processTransaction "AB" 100 "T" (1/2) (1/2) (1/2) "TS").isSome = true ∧
      ValidTransaction (mkTransaction "AB" "QUI=" 100 "T" (1/2) (1/2) (1/2) "TS") "TS" := by
  have h := processTransaction_total_and_valid "AB" 100 "T" (1/2) (1/2) (1/2) "TS"
    rfl (by norm_num) (by norm_num) (by norm_num) (by norm_num) (by norm_num)
    (by norm_num) (by norm_num)
  exact ⟨h.1, h.2 _ rfl⟩

/-- Counterexample to C5 as stated: the non-empty identity `€` contains a
code point above 255, so the `btoa` call inside `processTransaction` raises
`InvalidCharacterError` (modelled as `none`) instead of returning a
transaction. -/
theorem processTransaction_nonLatin1_counterexample :
    processTransaction "€" 100 "T" 0 0 0 "TS" = none := rfl

/-- C2 (amended): the gateway is total and returns the deterministic fallback
whenever the remote call throws or the coerced content fails JSON parsing,
and the fallback itself is well-formed; but any successfully parsed value is
returned unvalidated (the `as AnalysisResponse` cast performs no runtime
check). -/
theorem analyzeFraudCase_amended (parse : String → Option Json) (txn : TransactionR) :
    analyzeFraudCase parse RemoteOutcome.error txn = fallbackResponse txn ∧
      (∀ text, parse (coerceText text) = none →
        analyzeFraudCase parse (RemoteOutcome.ok text) txn = fallbackResponse txn) ∧
      (∀ text j, parse (coerceText text) = some j →
        analyzeFraudCase parse (RemoteOutcome.ok text) txn = j) ∧
      wellFormedAnalysis (fallbackResponse txn) = true := by
  refine ⟨rfl, ?_, ?_, ?_⟩
  · intro text h
    simp [analyzeFraudCase, h]
  · intro text j h
    simp [analyzeFraudCase, h]
  · by_cases hf : txn.fraudScore > 0.7 <;>
      simp [fallbackResponse, wellFormedAnalysis, lookupField, isStringVal,
        isThreatLevelVal, hf]

/-- Witness for the amended C2: non-JSON content routes to the fallback. -/
theorem analyzeFraudCase_amended_witness :
    analyzeFraudCase jsonParseModel (RemoteOutcome.ok (some "not json")) sampleTxnHigh =
      fallbackResponse sampleTxnHigh :=
  (analyzeFraudCase_amended jsonParseModel sampleTxnHigh).2.1 (some "not json") rfl

/-- Counterexample to C2 as stated: when the remote call succeeds with empty
content, the source coerces the text to the empty-object literal, parses it to
the empty object, and returns it as-is: a structurally invalid result that is
not the fallback. -/
theorem analyzeFraudCase_empty_text_counterexample :
    analyzeFraudCase jsonParseModel (RemoteOutcome.ok none) sampleTxn = Json.obj [] ∧
      wellFormedAnalysis (Json.obj []) = false ∧
      analyzeFraudCase jsonParseModel (RemoteOutcome.ok none) sampleTxn ≠
        fallbackResponse sampleTxn := by
  refine ⟨rfl, rfl, ?_⟩
  intro hcontr
  rw [show analyzeFraudCase jsonParseModel (RemoteOutcome.ok none) sampleTxn =
      Json.obj [] from rfl] at hcontr
  simp [fallbackResponse] at hcontr

/-- C7: on the remote-failure path the returned analysis has threat level
`High` exactly when the transaction's fraud score exceeds `0.7` (else `Low`),
and the fixed manual-verification recommendation; in particular fraud score
`0.85` yields `High` and `0.3` yields `Low`. -/
theorem analyzeFraudCase_fallback_fields (parse : String → Option Json)
    (txn : TransactionR) :
    getField (analyzeFraudCase parse RemoteOutcome.error txn) "threatLevel" =
        some (Json.str (if txn.fraudScore > 0.7 then "High" else "Low")) ∧
      getField (analyzeFraudCase parse RemoteOutcome.error txn) "recommendation" =
        some (Json.str "Manual verification required.") ∧
      (txn.fraudScore = 0.85 →
        getField (analyzeFraudCase parse RemoteOutcome.error txn) "threatLevel" =
          some (Json.str "High")) ∧
      (txn.fraudScore = 0.3 →
        getField (analyzeFraudCase parse RemoteOutcome.error txn) "threatLevel" =
          some (Json.str "Low")) := by
  have h1 : getField (analyzeFraudCase parse RemoteOutcome.error txn) "threatLevel" =
      some (Json.str (if txn.fraudScore > 0.7 then "High" else "Low")) := by
    simp [analyzeFraudCase, fallbackResponse, getField, lookupField]
  have h2 : getField (analyzeFraudCase parse RemoteOutcome.error txn) "recommendation" =
      some (Json.str "Manual verification required.") := by
    simp [analyzeFraudCase, fallbackResponse, getField, lookupField]
  refine ⟨h1, h2, ?_, ?_⟩
  · intro h
    rw [h1, if_pos (by rw [h]; norm_num)]
  · intro h
    rw [h1, if_neg (by rw [h]; norm_num)]

/-- Witness for C7 at the sample transactions with fraud scores `0.85`
and `0.3`. -/
theorem analyzeFraudCase_fallback_fields_witness :
    getField (analyzeFraudCase jsonParseModel RemoteOutcome.error sampleTxnHigh)
        "threatLevel" = some (Json.str "High") ∧
      getField (analyzeFraudCase jsonParseModel RemoteOutcome.error sampleTxn)
        "threatLevel" = some (Json.str "Low") ∧
      getField (analyzeFraudCase jsonParseModel RemoteOutcome.error sampleTxnHigh)
        "recommendation" = some (Json.str "Manual verification required.") :=
  ⟨(analyzeFraudCase_fallback_fields jsonParseModel sampleTxnHigh).2.2.1 rfl,
   (analyzeFraudCase_fallback_fields jsonParseModel sampleTxn).2.2.2 rfl,
   (analyzeFraudCase_fallback_fields jsonParseModel sampleTxnHigh).2.1⟩

end SMPC
